import Mathlib

/-!
Verification of the hashblock/exchange client-side addressing codec and
protocol logic (src/modules/address.py and src/cli/sawtooth_cli/eventsset.py).

The Python source is shallowly embedded: strings are Lean `String`s, Python
byte strings are `List Nat` (each element < 256), machine words are `Nat`
reduced modulo `2 ^ 64` / `2 ^ 32`, and code that can raise returns
`Option` / `Except`.  SHA-512 and SHA-256 (used by `hashlib` in the source)
are implemented in full so that every address constant is computed exactly
as the program computes it.
-/

set_option maxRecDepth 10000

namespace HBEx

/-! ## Hexadecimal rendering (hashlib's `hexdigest`) -/

/-- Lowercase hexadecimal digit characters, as Python's `hexdigest` emits. -/
def hexDigits : List Char := "0123456789abcdef".data

/-- The hexadecimal digit character of `n % 16`. -/
def hexChar (n : Nat) : Char := hexDigits.getD (n % 16) '0'

/-- Fixed-width big-endian hexadecimal rendering of a natural number. -/
def hexOfNat (width n : Nat) : List Char :=
  (List.range width).map (fun i => hexChar (n / 16 ^ (width - 1 - i)))

/-! ## UTF-8 encoding (Python's `str.encode("utf-8")`) -/

/-- UTF-8 encoding of one character as its list of byte values. -/
def utf8Char (c : Char) : List Nat :=
  let n := c.toNat
  if n < 0x80 then [n]
  else if n < 0x800 then [0xC0 + n / 64, 0x80 + n % 64]
  else if n < 0x10000 then [0xE0 + n / 4096, 0x80 + n / 64 % 64, 0x80 + n % 64]
  else [0xF0 + n / 262144, 0x80 + n / 4096 % 64, 0x80 + n / 64 % 64, 0x80 + n % 64]

/-- UTF-8 encoding of a string, modelling Python's `s.encode("utf-8")`. -/
def utf8Bytes (s : String) : List Nat :=
  s.data.foldr (fun c acc => utf8Char c ++ acc) []

/-! ## SHA-512 (FIPS 180-4), on byte lists, words as `Nat` mod `2 ^ 64` -/

/-- Modulus for 64-bit words. -/
def w64 : Nat := 2 ^ 64

/-- Right rotation of a 64-bit word (values kept below `2 ^ 64`). -/
def rotr64 (n x : Nat) : Nat := x / 2 ^ n + x % 2 ^ n * 2 ^ (64 - n)

/-- SHA-512 choice function `Ch`. -/
def ch64 (e f g : Nat) : Nat := (e &&& f) ^^^ ((e ^^^ (w64 - 1)) &&& g)

/-- SHA-512 majority function `Maj`. -/
def maj64 (a b c : Nat) : Nat := (a &&& b) ^^^ (a &&& c) ^^^ (b &&& c)

/-- SHA-512 big sigma 0. -/
def bsig0 (x : Nat) : Nat := rotr64 28 x ^^^ rotr64 34 x ^^^ rotr64 39 x

/-- SHA-512 big sigma 1. -/
def bsig1 (x : Nat) : Nat := rotr64 14 x ^^^ rotr64 18 x ^^^ rotr64 41 x

/-- SHA-512 small sigma 0. -/
def ssig0 (x : Nat) : Nat := rotr64 1 x ^^^ rotr64 8 x ^^^ x / 2 ^ 7

/-- SHA-512 small sigma 1. -/
def ssig1 (x : Nat) : Nat := rotr64 19 x ^^^ rotr64 61 x ^^^ x / 2 ^ 6

/-- The 80 SHA-512 round constants. -/
def sha512K : List Nat :=
  [4794697086780616226, 8158064640168781261, 13096744586834688815, 16840607885511220156,
   4131703408338449720, 6480981068601479193, 10538285296894168987, 12329834152419229976,
   15566598209576043074, 1334009975649890238, 2608012711638119052, 6128411473006802146,
   8268148722764581231, 9286055187155687089, 11230858885718282805, 13951009754708518548,
   16472876342353939154, 17275323862435702243, 1135362057144423861, 2597628984639134821,
   3308224258029322869, 5365058923640841347, 6679025012923562964, 8573033837759648693,
   10970295158949994411, 12119686244451234320, 12683024718118986047, 13788192230050041572,
   14330467153632333762, 15395433587784984357, 489312712824947311, 1452737877330783856,
   2861767655752347644, 3322285676063803686, 5560940570517711597, 5996557281743188959,
   7280758554555802590, 8532644243296465576, 9350256976987008742, 10552545826968843579,
   11727347734174303076, 12113106623233404929, 14000437183269869457, 14369950271660146224,
   15101387698204529176, 15463397548674623760, 17586052441742319658, 1182934255886127544,
   1847814050463011016, 2177327727835720531, 2830643537854262169, 3796741975233480872,
   4115178125766777443, 5681478168544905931, 6601373596472566643, 7507060721942968483,
   8399075790359081724, 8693463985226723168, 9568029438360202098, 10144078919501101548,
   10430055236837252648, 11840083180663258601, 13761210420658862357, 14299343276471374635,
   14566680578165727644, 15097957966210449927, 16922976911328602910, 17689382322260857208,
   500013540394364858, 748580250866718886, 1242879168328830382, 1977374033974150939,
   2944078676154940804, 3659926193048069267, 4368137639120453308, 4836135668995329356,
   5532061633213252278, 6448918945643986474, 6902733635092675308, 7801388544844847127]

/-- An eight-word hash state (`a` through `h` in FIPS 180-4 notation). -/
structure Hash8 where
  a : Nat
  b : Nat
  c : Nat
  d : Nat
  e : Nat
  f : Nat
  g : Nat
  h : Nat
deriving DecidableEq, Repr

/-- SHA-512 initial hash value. -/
def sha512H0 : Hash8 :=
  ⟨7640891576956012808, 13503953896175478587, 4354685564936845355, 11912009170470909681,
   5840696475078001361, 11170449401992604703, 2270897969802886507, 6620516959819538809⟩

/-- One SHA-512 round, consuming a (round constant, schedule word) pair. -/
def sha512Round (st : Hash8) (kw : Nat × Nat) : Hash8 :=
  let t1 := (st.h + bsig1 st.e + ch64 st.e st.f st.g + kw.1 + kw.2) % w64
  let t2 := (bsig0 st.a + maj64 st.a st.b st.c) % w64
  ⟨(t1 + t2) % w64, st.a, st.b, st.c, (st.d + t1) % w64, st.e, st.f, st.g⟩

/-- Big-endian word value of a byte list. -/
def beWord (bytes : List Nat) : Nat := bytes.foldl (fun acc b => acc * 256 + b) 0

/-- The sixteen 64-bit big-endian message words of one 128-byte block. -/
def blockWords64 (block : List Nat) : List Nat :=
  (List.range 16).map (fun j => beWord ((block.drop (8 * j)).take 8))

/-- Extend a SHA-512 message schedule by `n` further words. -/
def extendWords64 : Nat → List Nat → List Nat
  | 0, ws => ws
  | n + 1, ws =>
    let l := ws.length
    let next := (ssig1 (ws.getD (l - 2) 0) + ws.getD (l - 7) 0 +
                 ssig0 (ws.getD (l - 15) 0) + ws.getD (l - 16) 0) % w64
    extendWords64 n (ws ++ [next])

/-- SHA-512 compression of one 128-byte block into the running state. -/
def sha512Compress (st : Hash8) (block : List Nat) : Hash8 :=
  let ws := extendWords64 64 (blockWords64 block)
  let r := (sha512K.zip ws).foldl sha512Round st
  ⟨(st.a + r.a) % w64, (st.b + r.b) % w64, (st.c + r.c) % w64, (st.d + r.d) % w64,
   (st.e + r.e) % w64, (st.f + r.f) % w64, (st.g + r.g) % w64, (st.h + r.h) % w64⟩

/-- Merkle-Damgard padding: append `0x80`, zeros, then the bit length in
`lenBytes` big-endian bytes, reaching a multiple of `blockLen` bytes. -/
def padMessage (blockLen lenBytes : Nat) (bytes : List Nat) : List Nat :=
  let l := bytes.length
  let k := (2 * blockLen - lenBytes - 1 - l % blockLen) % blockLen
  bytes ++ [0x80] ++ List.replicate k 0 ++
    (List.range lenBytes).map (fun i => 8 * l / 256 ^ (lenBytes - 1 - i) % 256)

/-- Split a padded message into its `blockLen`-byte blocks. -/
def toBlocks (blockLen : Nat) (padded : List Nat) : List (List Nat) :=
  (List.range (padded.length / blockLen)).map
    (fun i => (padded.drop (blockLen * i)).take blockLen)

/-- The final SHA-512 state of the UTF-8 encoding of a string. -/
def sha512State (s : String) : Hash8 :=
  (toBlocks 128 (padMessage 128 16 (utf8Bytes s))).foldl sha512Compress sha512H0

/-- SHA-512 hex digest characters (128 of them) of a string's UTF-8 bytes. -/
def sha512HexChars (s : String) : List Char :=
  let st := sha512State s
  hexOfNat 16 st.a ++ hexOfNat 16 st.b ++ hexOfNat 16 st.c ++ hexOfNat 16 st.d ++
  hexOfNat 16 st.e ++ hexOfNat 16 st.f ++ hexOfNat 16 st.g ++ hexOfNat 16 st.h

/-! ## SHA-256 (FIPS 180-4), words as `Nat` mod `2 ^ 32` -/

/-- Modulus for 32-bit words. -/
def w32 : Nat := 2 ^ 32

/-- Right rotation of a 32-bit word (values kept below `2 ^ 32`). -/
def rotr32 (n x : Nat) : Nat := x / 2 ^ n + x % 2 ^ n * 2 ^ (32 - n)

/-- SHA-256 big sigma 0. -/
def bsig0x (x : Nat) : Nat := rotr32 2 x ^^^ rotr32 13 x ^^^ rotr32 22 x

/-- SHA-256 big sigma 1. -/
def bsig1x (x : Nat) : Nat := rotr32 6 x ^^^ rotr32 11 x ^^^ rotr32 25 x

/-- SHA-256 small sigma 0. -/
def ssig0x (x : Nat) : Nat := rotr32 7 x ^^^ rotr32 18 x ^^^ x / 2 ^ 3

/-- SHA-256 small sigma 1. -/
def ssig1x (x : Nat) : Nat := rotr32 17 x ^^^ rotr32 19 x ^^^ x / 2 ^ 10

/-- The 64 SHA-256 round constants. -/
def sha256K : List Nat :=
  [1116352408, 1899447441, 3049323471, 3921009573,
   961987163, 1508970993, 2453635748, 2870763221,
   3624381080, 310598401, 607225278, 1426881987,
   1925078388, 2162078206, 2614888103, 3248222580,
   3835390401, 4022224774, 264347078, 604807628,
   770255983, 1249150122, 1555081692, 1996064986,
   2554220882, 2821834349, 2952996808, 3210313671,
   3336571891, 3584528711, 113926993, 338241895,
   666307205, 773529912, 1294757372, 1396182291,
   1695183700, 1986661051, 2177026350, 2456956037,
   2730485921, 2820302411, 3259730800, 3345764771,
   3516065817, 3600352804, 4094571909, 275423344,
   430227734, 506948616, 659060556, 883997877,
   958139571, 1322822218, 1537002063, 1747873779,
   1955562222, 2024104815, 2227730452, 2361852424,
   2428436474, 2756734187, 3204031479, 3329325298]

/-- SHA-256 initial hash value. -/
def sha256H0 : Hash8 :=
  ⟨1779033703, 3144134277, 1013904242, 2773480762,
   1359893119, 2600822924, 528734635, 1541459225⟩

/-- The SHA-256 choice function (32-bit complement). -/
def ch32 (e f g : Nat) : Nat := (e &&& f) ^^^ ((e ^^^ (w32 - 1)) &&& g)

/-- One SHA-256 round, consuming a (round constant, schedule word) pair. -/
def sha256Round (st : Hash8) (kw : Nat × Nat) : Hash8 :=
  let t1 := (st.h + bsig1x st.e + ch32 st.e st.f st.g + kw.1 + kw.2) % w32
  let t2 := (bsig0x st.a + maj64 st.a st.b st.c) % w32
  ⟨(t1 + t2) % w32, st.a, st.b, st.c, (st.d + t1) % w32, st.e, st.f, st.g⟩

/-- The sixteen 32-bit big-endian message words of one 64-byte block. -/
def blockWords32 (block : List Nat) : List Nat :=
  (List.range 16).map (fun j => beWord ((block.drop (4 * j)).take 4))

/-- Extend a SHA-256 message schedule by `n` further words. -/
def extendWords32 : Nat → List Nat → List Nat
  | 0, ws => ws
  | n + 1, ws =>
    let l := ws.length
    let next := (ssig1x (ws.getD (l - 2) 0) + ws.getD (l - 7) 0 +
                 ssig0x (ws.getD (l - 15) 0) + ws.getD (l - 16) 0) % w32
    extendWords32 n (ws ++ [next])

/-- SHA-256 compression of one 64-byte block into the running state. -/
def sha256Compress (st : Hash8) (block : List Nat) : Hash8 :=
  let ws := extendWords32 48 (blockWords32 block)
  let r := (sha256K.zip ws).foldl sha256Round st
  ⟨(st.a + r.a) % w32, (st.b + r.b) % w32, (st.c + r.c) % w32, (st.d + r.d) % w32,
   (st.e + r.e) % w32, (st.f + r.f) % w32, (st.g + r.g) % w32, (st.h + r.h) % w32⟩

/-- The final SHA-256 state of the UTF-8 encoding of a string. -/
def sha256State (s : String) : Hash8 :=
  (toBlocks 64 (padMessage 64 8 (utf8Bytes s))).foldl sha256Compress sha256H0

/-- SHA-256 hex digest characters (64 of them) of a string's UTF-8 bytes. -/
def sha256HexChars (s : String) : List Char :=
  let st := sha256State s
  hexOfNat 8 st.a ++ hexOfNat 8 st.b ++ hexOfNat 8 st.c ++ hexOfNat 8 st.d ++
  hexOfNat 8 st.e ++ hexOfNat 8 st.f ++ hexOfNat 8 st.g ++ hexOfNat 8 st.h

/-! ## Python string slicing -/

/-- Python slice `s[0:n]`. -/
def strTake (s : String) (n : Nat) : String := String.mk (s.data.take n)

/-- Did the embedded call return normally (no exception)? -/
def exceptIsOk : Except String α → Bool
  | Except.ok _ => true
  | Except.error _ => false

/-! ## The addressing codec of `src/modules/address.py`

The `Address` class methods only depend on the constructed object through
`self.ns_family`, which is determined by the family string, so each method is
embedded as a function taking the family string as its first argument. -/

namespace Address

/-- Method `Address.hashup`: the full SHA-512 hex digest of the UTF-8 value. -/
def hashup (value : String) : String := String.mk (sha512HexChars value)

/-- Class constant `Address._namespace_hash`: SHA-512 of `"hashblock"`, first
6 hex characters. -/
def namespace_hash : String := strTake (hashup "hashblock") 6

/-- Property `ns_family` (equivalently `BaseAddress._reghash`): the namespace
hash followed by the first 6 digest characters of the family string. -/
def ns_family (family : String) : String :=
  namespace_hash ++ strTake (hashup family) 6

/-- Uppercase hexadecimal digit characters (the regex also accepts these). -/
def hexDigitsUpper : List Char := "ABCDEF".data

/-- One character of the regex class `[0-9a-fA-F]`. -/
def isHexChar (c : Char) : Bool := hexDigits.contains c || hexDigitsUpper.contains c

/-- Classmethod `Address.valid_address`: nonempty, all characters hexadecimal
(the regex `^[0-9a-fA-F]+$`), and even length. -/
def valid_address (address : String) : Bool :=
  decide (address.length ≠ 0) && address.data.all isHexChar &&
    address.length % 2 == 0

/-- Classmethod `Address.valid_leaf_address`: a valid address of length 70. -/
def valid_leaf_address (address : String) : Bool :=
  valid_address address && address.length == 70

/-- Classmethod `Address.leaf_address_type`: a valid leaf address starting
with the target prefix string. -/
def leaf_address_type (target address : String) : Bool :=
  valid_leaf_address address && target == strTake address target.length

/-- Method `Address.txq_dimension`: `ns_family` plus the dimension hash. -/
def txq_dimension (family dimension : String) : String :=
  ns_family family ++ strTake (hashup dimension) 6

/-- Method `Address.txq_list`: `txq_dimension` plus the operations hash. -/
def txq_list (family dimension ops : String) : String :=
  txq_dimension family dimension ++ strTake (hashup ops) 6

/-- Method `Address.match2_initiate_unmatched`: the match list prefix, the
literal status character `'0'`, then the first 45 digest characters of the
identifier. -/
def match2_initiate_unmatched (family dimension ops ident : String) : String :=
  txq_list family dimension ops ++ "0" ++ strTake (hashup ident) 45

/-- Method `Address.set_utxq_matched`: `laddr = list(address); laddr[24] = '1'`.
The Python item assignment raises `IndexError` when index 24 is out of range,
embedded here as `none`. -/
def set_utxq_matched (address : String) : Option String :=
  if 24 < address.data.length then some (String.mk (address.data.set 24 '1'))
  else none

/-- Method `Address.set_utxq_unmatched`: as `set_utxq_matched` with `'0'`. -/
def set_utxq_unmatched (address : String) : Option String :=
  if 24 < address.data.length then some (String.mk (address.data.set 24 '0'))
  else none

/-- Method `Address.asset_prefix`: `ns_family` plus the two-character literal
dimension discriminator (`"00"` for the unit dimension, else `"01"`). -/
def asset_pfx (family dimension : String) : String :=
  ns_family family ++ (if dimension == "unit" then "00" else "01")

/-- Method `Address.asset_item_syskey`: `asset_prefix` plus the system and
key hashes. -/
def asset_item_syskey (family dimension system key : String) : String :=
  asset_pfx family dimension ++ strTake (hashup system) 6 ++ strTake (hashup key) 6

/-- Method `Address.asset_item`: raises `AssetIdRange` when the identifier is
`None` or its length differs from 44, otherwise appends it to the syskey
prefix. -/
def asset_item (family dimension system key : String) (ident : Option String) :
    Except String String :=
  match ident with
  | none =>
      Except.error ("Id != 44 for " ++ dimension ++ " " ++ system ++ " " ++
        key ++ " None")
  | some i =>
      if i.length ≠ 44 then
        Except.error ("Id != 44 for " ++ dimension ++ " " ++ system ++ " " ++
          key ++ " " ++ i)
      else
        Except.ok (asset_item_syskey family dimension system key ++ i)

/-- Method `UnitAddress.unit_address` (family `"unit"`): `family_ns_hash` plus
the first 8 system digest characters, 6 key digest characters, and the
44-character identifier; `AssetIdRange` on a missing or non-44 identifier. -/
def unit_address (system key : String) (ident : Option String) :
    Except String String :=
  match ident with
  | none =>
      Except.error ("Invalid ident None for " ++ "unit" ++ " " ++ system ++
        " " ++ key)
  | some i =>
      if i.length ≠ 44 then
        Except.error ("Invalid ident " ++ i ++ " for " ++ "unit" ++ " " ++
          system ++ " " ++ key)
      else
        Except.ok (ns_family "unit" ++ strTake (hashup system) 8 ++
          strTake (hashup key) 6 ++ i)

/-- Method `AssetAddress.asset_address` (family `"asset"`): same scheme as
`unit_address` with the asset family hash. -/
def asset_address (system key : String) (ident : Option String) :
    Except String String :=
  match ident with
  | none =>
      Except.error ("Invalid ident None for " ++ "asset" ++ " " ++ system ++
        " " ++ key)
  | some i =>
      if i.length ≠ 44 then
        Except.error ("Invalid ident " ++ i ++ " for " ++ "asset" ++ " " ++
          system ++ " " ++ key)
      else
        Except.ok (ns_family "asset" ++ strTake (hashup system) 8 ++
          strTake (hashup key) 6 ++ i)

end Address

/-! ## The CLI protocol logic of `src/cli/sawtooth_cli/eventsset.py`

The REST client, key files and protobuf wire format are external
collaborators; the protobuf messages are embedded as structures carrying the
fields the source reads and writes, and the signing capability as a function
from the serialized header to a signature string. -/

namespace Events

/-- Module constant `UNITS_NAMESPACE`: SHA-512 of `"events"`, first 6 hex
characters. -/
def UNITS_NAMESPACE : String := strTake (String.mk (sha512HexChars "events")) 6

/-- Function `_short_hash`: SHA-256 hex digest truncated to
`_ADDRESS_PART_SIZE = 16` characters. -/
def short_hash (in_str : String) : String :=
  strTake (String.mk (sha256HexChars in_str)) 16

/-- Split a character list at its first `'.'`, when one occurs. -/
def splitFirstDot : List Char → Option (List Char × List Char)
  | [] => none
  | c :: cs =>
    if c = '.' then some ([], cs)
    else
      match splitFirstDot cs with
      | none => none
      | some (l, r) => some (c :: l, r)

/-- Python `key.split('.', maxsplit=n)`: at most `n` splits, so at most
`n + 1` parts. -/
def splitDotMax : Nat → List Char → List (List Char)
  | 0, cs => [cs]
  | n + 1, cs =>
    match splitFirstDot cs with
    | none => [cs]
    | some (l, r) => l :: splitDotMax n r

/-- The split-and-pad step of `_key_to_address`: split on `'.'` into at most
`_MAX_KEY_PARTS = 4` parts and extend with empty strings to 4 parts. -/
def key_parts (key : String) : List String :=
  let parts := (splitDotMax 3 key.data).map String.mk
  parts ++ List.replicate (4 - parts.length) ""

/-- Python `''.join`. -/
def str_join : List String → String
  | [] => ""
  | s :: rest => s ++ str_join rest

/-- Function `_key_to_address`: the `UNITS_NAMESPACE` hash followed by the
short hash of each of the 4 key parts. -/
def key_to_address (key : String) : String :=
  UNITS_NAMESPACE ++ str_join ((key_parts key).map short_hash)

/-- Function `_config_inputs`: input addresses of an events transaction. -/
def config_inputs (key : String) : List String :=
  [key_to_address "hashblock.events.vote.proposals",
   key_to_address "hashblock.events.vote.authorized_keys",
   key_to_address "hashblock.events.vote.approval_threshold",
   key_to_address key]

/-- Function `_config_outputs`: output addresses of an events transaction. -/
def config_outputs (key : String) : List String :=
  [key_to_address "hashblock.events.vote.proposals",
   key_to_address key]

/-- The external signing capability: a secp256k1 signer exposing its public
key (as hex) and a signature over serialized bytes. -/
structure Signer where
  public_key : String
  sign : String → String

/-- Protobuf `TransactionHeader`, restricted to the fields the source sets. -/
structure TransactionHeaderM where
  signer_public_key : String
  family_name : String
  family_version : String
  inputs : List String
  outputs : List String
  payload_sha512 : String
  batcher_public_key : String
deriving DecidableEq, Repr

/-- Modelled from the spec: the external protobuf `SerializeToString` contract
for `TransactionHeader` (the generated `transaction_pb2` module is not under
`src/`); embedded as an explicit field-for-field encoding. -/
def serialize_txn_header (h : TransactionHeaderM) : String :=
  h.signer_public_key ++ "\x01" ++ h.family_name ++ "\x01" ++
  h.family_version ++ "\x01" ++ str_join (h.inputs.map (fun a => a ++ "\x02")) ++
  "\x01" ++ str_join (h.outputs.map (fun a => a ++ "\x02")) ++ "\x01" ++
  h.payload_sha512 ++ "\x01" ++ h.batcher_public_key

/-- Protobuf `Transaction`: serialized header, its signature, payload bytes. -/
structure TransactionM where
  header : TransactionHeaderM
  header_signature : String
  payload : String
deriving DecidableEq, Repr

/-- Protobuf `BatchHeader`, restricted to the fields the source sets. -/
structure BatchHeaderM where
  signer_public_key : String
  transaction_ids : List String
deriving DecidableEq, Repr

/-- Modelled from the spec: the external protobuf `SerializeToString` contract
for `BatchHeader` (the generated `batch_pb2` module is not under `src/`);
embedded as an explicit field-for-field encoding. -/
def serialize_batch_header (h : BatchHeaderM) : String :=
  h.signer_public_key ++ "\x01" ++
    str_join (h.transaction_ids.map (fun a => a ++ "\x02"))

/-- Protobuf `Batch`: header, its signature, and the transaction list. -/
structure BatchM where
  header : BatchHeaderM
  header_signature : String
  transactions : List TransactionM
deriving DecidableEq, Repr

/-- Function `_make_txn`: build the transaction header over the config input
and output addresses, digest the payload, sign the serialized header. -/
def make_txn (signer : Signer) (event_key payload : String) : TransactionM :=
  let header : TransactionHeaderM :=
    ⟨signer.public_key, "hashblock_events", "0.1.0", config_inputs event_key,
     config_outputs event_key, String.mk (sha512HexChars payload),
     signer.public_key⟩
  ⟨header, signer.sign (serialize_txn_header header), payload⟩

/-- Modelled from the spec: the external `EventProposal` / `EventPayload`
wire encoding of a propose action (the generated `events_pb2` module is not
under `src/`), carrying code, value and nonce. -/
def propose_payload (code value nonce : String) : String :=
  "PROPOSE" ++ "\x01" ++ code ++ "\x01" ++ value ++ "\x01" ++ nonce

/-- Modelled from the spec: the external `EventVote` / `EventPayload` wire
encoding of a vote action, carrying the proposal id and the accept or reject
value. -/
def vote_payload (proposal_id : String) (accept : Bool) : String :=
  "VOTE" ++ "\x01" ++ proposal_id ++ "\x01" ++ (if accept then "1" else "0")

/-- Function `_create_propose_txn` (the nonce, a wall-clock timestamp in the
source, is passed explicitly). -/
def create_propose_txn (signer : Signer) (event_key event_value nonce : String) :
    TransactionM :=
  make_txn signer event_key (propose_payload event_key event_value nonce)

/-- Function `_create_vote_txn`: encodes `'accept'` as an accepting vote and
any other value as rejecting, then builds the transaction for the key. -/
def create_vote_txn (signer : Signer) (proposal_id event_key vote_value : String) :
    TransactionM :=
  make_txn signer event_key (vote_payload proposal_id (vote_value == "accept"))

/-- Function `_create_batch`: collect the ordered transaction header
signatures, build and sign the batch header, return the batch. -/
def create_batch (signer : Signer) (transactions : List TransactionM) : BatchM :=
  let txn_ids := transactions.map (fun txn => txn.header_signature)
  let batch_header : BatchHeaderM := ⟨signer.public_key, txn_ids⟩
  ⟨batch_header, signer.sign (serialize_batch_header batch_header), transactions⟩

/-- One recorded vote of a protobuf candidate. -/
structure VoteRecord where
  public_key : String
  vote : Nat
deriving DecidableEq, Repr

/-- A protobuf candidate: a pending proposal and its recorded votes. -/
structure Candidate where
  proposal_id : String
  code : String
  value : String
  votes : List VoteRecord
deriving DecidableEq, Repr

/-- Python `str.startswith`, embedded as the structural prefix test on the
character lists. -/
def startswith (s pre : String) : Bool := pre.data.isPrefixOf s.data

/-- The nested `_accept` predicate of `_do_event_list`: Python evaluates
`not public_key or candidate.votes[0].public_key == public_key` first, so a
non-empty filter key reads `votes[0]`, raising `IndexError` (`none`) when the
vote list is empty. -/
def accept_candidate (candidate : Candidate) (public_key pfx : String) :
    Option Bool :=
  if public_key = "" then some (startswith candidate.code pfx)
  else
    match candidate.votes.head? with
    | none => none
    | some v =>
        some (startswith candidate.code pfx && v.public_key == public_key)

/-- The candidate listing comprehension of `_do_event_list`: keep the accepted
candidates in source order, propagating an `IndexError` from any element. -/
def list_candidates : List Candidate → String → String → Option (List Candidate)
  | [], _, _ => some []
  | c :: cs, public_key, pfx =>
    match accept_candidate c public_key pfx, list_candidates cs public_key pfx with
    | none, _ => none
    | some _, none => none
    | some b, some rest => some (if b then c :: rest else rest)

/-- The total filter predicate the listing computes on candidates whose vote
list is non-empty (or when no public-key filter is given): the code starts
with the prefix and the public-key filter is empty or matches the first
recorded vote. -/
def accept_total (candidate : Candidate) (public_key pfx : String) : Bool :=
  startswith candidate.code pfx &&
    (public_key == "" ||
      match candidate.votes.head? with
      | none => false
      | some v => v.public_key == public_key)

/-- The candidate lookup loop of `_do_event_reciprocate`: first candidate with
the requested proposal id. -/
def find_candidate (cands : List Candidate) (proposal_id : String) :
    Option Candidate :=
  cands.find? (fun c => c.proposal_id == proposal_id)

/-- Function `_do_event_reciprocate`, after the external proposal fetch: find
the candidate, reject a duplicate vote by the signer before any transaction
is built, otherwise build the vote transaction and its batch. -/
def do_event_reciprocate (signer : Signer) (cands : List Candidate)
    (proposal_id vote_value : String) : Except String BatchM :=
  match find_candidate cands proposal_id with
  | none => Except.error "No proposal exists with the given id"
  | some proposal =>
    if proposal.votes.any (fun v => v.public_key == signer.public_key) then
      Except.error "A vote has already been recorded with this signing key"
    else
      Except.ok (create_batch signer
        [create_vote_txn signer proposal_id proposal.code vote_value])

/-- The authorized-keys computation of `_do_config_genesis`: default to the
signer's key on an empty argument list, then append the signer's key when
missing. -/
def genesis_authorized_keys (public_key : String) (arg_keys : List String) :
    List String :=
  let authorized := if arg_keys.isEmpty then [public_key] else arg_keys
  if public_key ∈ authorized then authorized else authorized ++ [public_key]

/-- Function `_do_config_genesis`, up to the batch serialization: the
authorized-keys proposal, the threshold range checks, and the optional
approval-threshold proposal, returned as (code, value) proposal pairs. -/
def do_config_genesis (public_key : String) (arg_keys : List String)
    (approval_threshold : Option Int) : Except String (List (String × String)) :=
  let authorized := genesis_authorized_keys public_key arg_keys
  let base := [("hashblock.events.vote.authorized_keys",
                String.intercalate "," authorized)]
  match approval_threshold with
  | none => Except.ok base
  | some t =>
    if t < 1 then Except.error "approval threshold must not be less than 1"
    else if t > (authorized.length : Int) then
      Except.error
        "approval threshold must not be greater than the number of authorized keys"
    else
      Except.ok (base ++
        [("hashblock.events.vote.approval_threshold", toString t)])

end Events

/-! ## Supporting lemmas -/

theorem hexOfNat_length (width n : Nat) : (hexOfNat width n).length = width := by
  simp [hexOfNat]

theorem hexChar_mem_hexDigits (n : Nat) : hexChar n ∈ hexDigits := by
  have h : n % 16 < hexDigits.length := Nat.mod_lt _ (by decide)
  rw [hexChar, List.getD_eq_getElem hexDigits '0' h]
  exact List.getElem_mem h

theorem hexOfNat_mem_hexDigits (width n : Nat) :
    ∀ c ∈ hexOfNat width n, c ∈ hexDigits := by
  intro c hc
  rcases List.mem_map.mp hc with ⟨i, _, rfl⟩
  exact hexChar_mem_hexDigits _

theorem sha512HexChars_length (s : String) : (sha512HexChars s).length = 128 := by
  simp [sha512HexChars, hexOfNat_length]

theorem sha512HexChars_mem_hexDigits (s : String) :
    ∀ c ∈ sha512HexChars s, c ∈ hexDigits := by
  intro c hc
  simp only [sha512HexChars, List.mem_append] at hc
  rcases hc with ((((((h | h) | h) | h) | h) | h) | h) | h <;>
    exact hexOfNat_mem_hexDigits _ _ _ h

theorem sha256HexChars_length (s : String) : (sha256HexChars s).length = 64 := by
  simp [sha256HexChars, hexOfNat_length]

theorem sha256HexChars_mem_hexDigits (s : String) :
    ∀ c ∈ sha256HexChars s, c ∈ hexDigits := by
  intro c hc
  simp only [sha256HexChars, List.mem_append] at hc
  rcases hc with ((((((h | h) | h) | h) | h) | h) | h) | h <;>
    exact hexOfNat_mem_hexDigits _ _ _ h

theorem strTake_length (s : String) (n : Nat) :
    (strTake s n).length = min n s.length := by
  show (s.data.take n).length = min n s.length
  exact List.length_take n s.data

namespace Address

theorem hashup_length (value : String) : (hashup value).length = 128 := by
  show (sha512HexChars value).length = 128
  exact sha512HexChars_length value

theorem strTake_hashup_length (value : String) (n : Nat) (h : n ≤ 128) :
    (strTake (hashup value) n).length = n := by
  rw [strTake_length, hashup_length]
  exact Nat.min_eq_left h

theorem namespace_hash_length : namespace_hash.length = 6 :=
  strTake_hashup_length "hashblock" 6 (by decide)

theorem ns_family_length (family : String) : (ns_family family).length = 12 := by
  rw [ns_family, String.length_append, namespace_hash_length,
    strTake_hashup_length family 6 (by decide)]

theorem txq_list_length (family dimension ops : String) :
    (txq_list family dimension ops).length = 24 := by
  rw [txq_list, txq_dimension, String.length_append, String.length_append,
    ns_family_length, strTake_hashup_length dimension 6 (by decide),
    strTake_hashup_length ops 6 (by decide)]

/-- Claim C2: for every dimension, operation verb and identifier, the
unmatched match-item address `match2_initiate_unmatched` equals the match-list
prefix `txq_list` concatenated with `'0'` and the first 45 hex characters of
the SHA-512 digest of the identifier, is exactly 70 characters long, the
prefix being exactly 24 characters, so the status character sits at absolute
offset 24. -/
theorem claim2_match2_initiate_unmatched (dimension ops ident : String) :
    match2_initiate_unmatched "match" dimension ops ident
        = txq_list "match" dimension ops ++ "0" ++ strTake (hashup ident) 45
    ∧ (match2_initiate_unmatched "match" dimension ops ident).length = 70
    ∧ (txq_list "match" dimension ops).length = 24
    ∧ (match2_initiate_unmatched "match" dimension ops ident).data[24]?
        = some '0' := by
  have hlen : (txq_list "match" dimension ops).data.length = 24 :=
    txq_list_length "match" dimension ops
  refine ⟨rfl, ?_, txq_list_length "match" dimension ops, ?_⟩
  · rw [match2_initiate_unmatched, String.length_append, String.length_append,
      txq_list_length, strTake_hashup_length ident 45 (by decide)]
    decide
  · have h0 : ("0" : String).data = ['0'] := rfl
    rw [match2_initiate_unmatched, String.data_append, String.data_append, h0,
      List.getElem?_append_left (by rw [List.length_append, hlen]; decide),
      List.getElem?_append_right (le_of_eq hlen)]
    simp [hlen]

theorem asset_pfx_length (family dimension : String) :
    (asset_pfx family dimension).length = 14 := by
  rw [asset_pfx, String.length_append, ns_family_length]
  cases h : dimension == "unit" <;> simp [h] <;> decide

theorem asset_item_syskey_length (family dimension system key : String) :
    (asset_item_syskey family dimension system key).length = 26 := by
  rw [asset_item_syskey, String.length_append, String.length_append,
    asset_pfx_length, strTake_hashup_length system 6 (by decide),
    strTake_hashup_length key 6 (by decide)]

/-- Claim C3 (amended): the asset and unit item-address constructors
`asset_item`, `unit_address` and `asset_address` fail with the `AssetIdRange`
error exactly when the identifier is absent or its length differs from 44
(hexadecimality of the identifier is not checked); for every identifier of
length exactly 44 they succeed and return a 70-character address. -/
theorem claim3_item_identifier_guard (family dimension system key : String)
    (ident : Option String) :
    (exceptIsOk (asset_item family dimension system key ident) = true
        ↔ ∃ i, ident = some i ∧ i.length = 44)
    ∧ (exceptIsOk (unit_address system key ident) = true
        ↔ ∃ i, ident = some i ∧ i.length = 44)
    ∧ (exceptIsOk (asset_address system key ident) = true
        ↔ ∃ i, ident = some i ∧ i.length = 44)
    ∧ (∀ i, ident = some i → i.length = 44 →
        (∃ a, asset_item family dimension system key ident = Except.ok a
            ∧ a.length = 70)
        ∧ (∃ a, unit_address system key ident = Except.ok a ∧ a.length = 70)
        ∧ (∃ a, asset_address system key ident = Except.ok a ∧ a.length = 70)) := by
  refine ⟨?_, ?_, ?_, ?_⟩
  · cases ident with
    | none => simp [asset_item, exceptIsOk]
    | some i =>
      by_cases h : i.length = 44 <;> simp [asset_item, exceptIsOk, h]
  · cases ident with
    | none => simp [unit_address, exceptIsOk]
    | some i =>
      by_cases h : i.length = 44 <;> simp [unit_address, exceptIsOk, h]
  · cases ident with
    | none => simp [asset_address, exceptIsOk]
    | some i =>
      by_cases h : i.length = 44 <;> simp [asset_address, exceptIsOk, h]
  · rintro i rfl h44
    refine ⟨⟨asset_item_syskey family dimension system key ++ i, ?_, ?_⟩,
      ⟨ns_family "unit" ++ strTake (hashup system) 8 ++ strTake (hashup key) 6
        ++ i, ?_, ?_⟩,
      ⟨ns_family "asset" ++ strTake (hashup system) 8 ++ strTake (hashup key) 6
        ++ i, ?_, ?_⟩⟩
    · simp [asset_item, h44]
    · rw [String.length_append, asset_item_syskey_length, h44]
    · simp [unit_address, h44]
    · rw [String.length_append, String.length_append, String.length_append,
        ns_family_length, strTake_hashup_length system 8 (by decide),
        strTake_hashup_length key 6 (by decide), h44]
    · simp [asset_address, h44]
    · rw [String.length_append, String.length_append, String.length_append,
        ns_family_length, strTake_hashup_length system 8 (by decide),
        strTake_hashup_length key 6 (by decide), h44]

/-- Claim C3 witness: at the 44-character identifier below, `unit_address`
succeeds. -/
theorem claim3_witness :
    exceptIsOk (unit_address "imperial" "foot"
      (some "0123456789abcdef0123456789abcdef012345678901")) = true :=
  (claim3_item_identifier_guard "asset" "unit" "imperial" "foot"
      (some "0123456789abcdef0123456789abcdef012345678901")).2.1.mpr
    ⟨"0123456789abcdef0123456789abcdef012345678901", rfl, by decide⟩

/-- Claim C3 counterexample: the 44-character identifier consisting of `'z'`
characters is not a hexadecimal identifier, yet `unit_address` succeeds on
it — the constructors check only the length, never hexadecimality. -/
theorem claim3_counterexample :
    exceptIsOk (unit_address "imperial" "foot"
        (some "zzzzzzzzzzzzzzzzzzzzzzzzzzzzzzzzzzzzzzzzzzzz")) = true
    ∧ ("zzzzzzzzzzzzzzzzzzzzzzzzzzzzzzzzzzzzzzzzzzzz" : String).length = 44
    ∧ ("zzzzzzzzzzzzzzzzzzzzzzzzzzzzzzzzzzzzzzzzzzzz" : String).data.all
        isHexChar = false := by
  refine ⟨by decide, by decide, by decide⟩

theorem list_set_eq_self {l : List Char} {n : Nat} {c : Char}
    (h : l[n]? = some c) : l.set n c = l := by
  apply List.ext_getElem?
  intro i
  by_cases hi : n = i
  · subst hi
    obtain ⟨hlt, -⟩ := List.getElem?_eq_some_iff.mp h
    rw [List.getElem?_set_self hlt, h]
  · rw [List.getElem?_set_ne hi]

theorem valid_leaf_length {address : String}
    (h : valid_leaf_address address = true) : address.length = 70 := by
  rw [valid_leaf_address, Bool.and_eq_true] at h
  exact eq_of_beq h.2

theorem leaf_type_length {target address : String}
    (h : leaf_address_type target address = true) : address.length = 70 := by
  rw [leaf_address_type, Bool.and_eq_true] at h
  exact valid_leaf_length h.1

/-- Claim C4 (amended): for every valid 70-character match-family leaf
address whose status character (index 24) is `'0'`, setting the status to
matched and then back to unmatched returns the original address, and each
flip leaves every character other than index 24 unchanged.  (For an address
already carrying status `'1'` the round trip instead returns the address with
status forced to `'0'`, so the hypothesis on index 24 is necessary.) -/
theorem claim4_flip_roundtrip (address : String)
    (hleaf : leaf_address_type (ns_family "match") address = true)
    (h0 : address.data[24]? = some '0') :
    (set_utxq_matched address).bind set_utxq_unmatched = some address
    ∧ (∀ m, set_utxq_matched address = some m →
        ∀ i, i ≠ 24 → m.data[i]? = address.data[i]?)
    ∧ (∀ u, set_utxq_unmatched address = some u →
        ∀ i, i ≠ 24 → u.data[i]? = address.data[i]?) := by
  have hlen : address.data.length = 70 := leaf_type_length hleaf
  have h24 : 24 < address.data.length := by omega
  have hm : set_utxq_matched address
      = some (String.mk (address.data.set 24 '1')) := by
    rw [set_utxq_matched, if_pos h24]
  have hu : set_utxq_unmatched address
      = some (String.mk (address.data.set 24 '0')) := by
    rw [set_utxq_unmatched, if_pos h24]
  refine ⟨?_, ?_, ?_⟩
  · rw [hm]
    show set_utxq_unmatched (String.mk (address.data.set 24 '1')) = some address
    have h24m : 24 < (String.mk (address.data.set 24 '1')).data.length := by
      show 24 < (address.data.set 24 '1').length
      rw [List.length_set]
      omega
    rw [set_utxq_unmatched, if_pos h24m]
    show some (String.mk ((address.data.set 24 '1').set 24 '0')) = some address
    rw [List.set_set, list_set_eq_self h0]
  · rintro m hm2 i hi
    rw [hm] at hm2
    injection hm2 with hm2
    subst hm2
    show (address.data.set 24 '1')[i]? = address.data[i]?
    exact List.getElem?_set_ne (Ne.symm hi)
  · rintro u hu2 i hi
    rw [hu] at hu2
    injection hu2 with hu2
    subst hu2
    show (address.data.set 24 '0')[i]? = address.data[i]?
    exact List.getElem?_set_ne (Ne.symm hi)

/-- Claim C4 witness: a concrete unmatched utxq-style leaf address under the
match family prefix round-trips through the two status flips. -/
theorem claim4_witness :
    (set_utxq_matched
        "957682cc7a070123456789ab0123456789abcdef123456789abcdef123456789abcdef").bind
      set_utxq_unmatched
    = some
      "957682cc7a070123456789ab0123456789abcdef123456789abcdef123456789abcdef" :=
  (claim4_flip_roundtrip
    "957682cc7a070123456789ab0123456789abcdef123456789abcdef123456789abcdef"
    (by decide) (by decide)).1

/-- Claim C4 counterexample: a valid 70-character match-family leaf address
whose status character is already `'1'` is not returned by the round trip —
the composition forces the status to `'0'` — so the round-trip law fails on
an arbitrary valid match-family leaf address. -/
theorem claim4_counterexample :
    leaf_address_type (ns_family "match")
      "957682cc7a070123456789ab1123456789abcdef123456789abcdef123456789abcdef"
      = true
    ∧ (((set_utxq_matched
        "957682cc7a070123456789ab1123456789abcdef123456789abcdef123456789abcdef").bind
        set_utxq_unmatched)
      == some
        "957682cc7a070123456789ab1123456789abcdef123456789abcdef123456789abcdef")
      = false := by
  refine ⟨by decide, by decide⟩

/-- Claim C5 (amended): `set_utxq_matched` and `set_utxq_unmatched` perform
no validity check at all: they raise (`IndexError`) exactly when the input
has no character at index 24 (length at most 24), and on every longer string
— valid leaf address or not — they return the input with only the character
at offset 24 replaced by `'1'` respectively `'0'`. -/
theorem claim5_set_status (address : String) :
    (set_utxq_matched address = none ↔ address.length ≤ 24)
    ∧ (set_utxq_unmatched address = none ↔ address.length ≤ 24)
    ∧ (∀ m, set_utxq_matched address = some m →
        m.length = address.length ∧ m.data[24]? = some '1'
          ∧ ∀ i, i ≠ 24 → m.data[i]? = address.data[i]?)
    ∧ (∀ u, set_utxq_unmatched address = some u →
        u.length = address.length ∧ u.data[24]? = some '0'
          ∧ ∀ i, i ≠ 24 → u.data[i]? = address.data[i]?) := by
  have hl : address.length = address.data.length := rfl
  by_cases h24 : 24 < address.data.length
  · refine ⟨?_, ?_, ?_, ?_⟩
    · rw [set_utxq_matched, if_pos h24]
      simp only [reduceCtorEq, false_iff]
      omega
    · rw [set_utxq_unmatched, if_pos h24]
      simp only [reduceCtorEq, false_iff]
      omega
    · rintro m hm
      rw [set_utxq_matched, if_pos h24] at hm
      injection hm with hm
      subst hm
      refine ⟨?_, List.getElem?_set_self h24, ?_⟩
      · show (address.data.set 24 '1').length = address.length
        rw [List.length_set, hl]
      · intro i hi
        show (address.data.set 24 '1')[i]? = address.data[i]?
        exact List.getElem?_set_ne (Ne.symm hi)
    · rintro u hu
      rw [set_utxq_unmatched, if_pos h24] at hu
      injection hu with hu
      subst hu
      refine ⟨?_, List.getElem?_set_self h24, ?_⟩
      · show (address.data.set 24 '0').length = address.length
        rw [List.length_set, hl]
      · intro i hi
        show (address.data.set 24 '0')[i]? = address.data[i]?
        exact List.getElem?_set_ne (Ne.symm hi)
  · refine ⟨?_, ?_, ?_, ?_⟩
    · rw [set_utxq_matched, if_neg h24]
      simp only [true_iff]
      omega
    · rw [set_utxq_unmatched, if_neg h24]
      simp only [true_iff]
      omega
    · rintro m hm
      rw [set_utxq_matched, if_neg h24] at hm
      exact absurd hm (by simp)
    · rintro u hu
      rw [set_utxq_unmatched, if_neg h24] at hu
      exact absurd hu (by simp)

/-- Claim C5 witness: on a concrete 32-character string the matched flip
succeeds and changes exactly the character at offset 24. -/
theorem claim5_witness :
    set_utxq_matched "0123456789abcdef0123456789abcdef"
      = some "0123456789abcdef0123456719abcdef"
    ∧ ("0123456789abcdef0123456719abcdef" : String).data[0]?
        = ("0123456789abcdef0123456789abcdef" : String).data[0]? := by
  have h := (claim5_set_status "0123456789abcdef0123456789abcdef").2.2.1
    "0123456789abcdef0123456719abcdef" (by decide)
  exact ⟨by decide, h.2.2 0 (by decide)⟩

/-- Claim C5 counterexample: a 30-character string is not a valid
70-character leaf address, yet `set_utxq_matched` succeeds on it — the
functions never validate their input. -/
theorem claim5_counterexample :
    valid_leaf_address "0123456789abcdef0123456789abcd" = false
    ∧ (set_utxq_matched "0123456789abcdef0123456789abcd").isSome = true := by
  refine ⟨by decide, by decide⟩

end Address

theorem isHexChar_of_mem_hexDigits {c : Char} (h : c ∈ hexDigits) :
    Address.isHexChar c = true := by
  rw [Address.isHexChar, Bool.or_eq_true]
  left
  exact List.elem_eq_true_of_mem h

namespace Events

theorem short_hash_length (s : String) : (short_hash s).length = 16 := by
  rw [short_hash, strTake_length]
  have h : (String.mk (sha256HexChars s)).length = 64 := sha256HexChars_length s
  rw [h]
  decide

theorem UNITS_NAMESPACE_length : UNITS_NAMESPACE.length = 6 := by
  rw [UNITS_NAMESPACE, strTake_length]
  have h : (String.mk (sha512HexChars "events")).length = 128 :=
    sha512HexChars_length "events"
  rw [h]
  decide

theorem splitDotMax_length (n : Nat) (cs : List Char) :
    (splitDotMax n cs).length ≤ n + 1 := by
  induction n generalizing cs with
  | zero => simp [splitDotMax]
  | succ n ih =>
    cases h : splitFirstDot cs with
    | none => simp [splitDotMax, h]
    | some p =>
      obtain ⟨l, r⟩ := p
      simp only [splitDotMax, h, List.length_cons]
      exact Nat.succ_le_succ (ih r)

theorem key_parts_length (key : String) : (key_parts key).length = 4 := by
  have h : ((splitDotMax 3 key.data).map String.mk).length ≤ 4 := by
    rw [List.length_map]
    exact splitDotMax_length 3 key.data
  simp only [key_parts, List.length_append, List.length_replicate]
  omega

theorem str_join_length (l : List String) :
    (str_join l).length = (l.map String.length).sum := by
  induction l with
  | nil => rfl
  | cons s rest ih =>
    rw [str_join, String.length_append, ih, List.map_cons, List.sum_cons]

theorem key_to_address_length (key : String) :
    (key_to_address key).length = 70 := by
  rw [key_to_address, String.length_append, UNITS_NAMESPACE_length,
    str_join_length]
  have hmap : ((key_parts key).map short_hash).map String.length
      = (key_parts key).map (fun _ => 16) := by
    rw [List.map_map]
    exact List.map_congr_left (fun s _ => short_hash_length s)
  rw [hmap, List.map_const', key_parts_length]
  decide

theorem mem_str_join {c : Char} {l : List String} (h : c ∈ (str_join l).data) :
    ∃ s ∈ l, c ∈ s.data := by
  induction l with
  | nil => cases h
  | cons s rest ih =>
    rw [str_join, String.data_append] at h
    rcases List.mem_append.mp h with h1 | h1
    · exact ⟨s, List.mem_cons_self s rest, h1⟩
    · obtain ⟨t, ht, hc⟩ := ih h1
      exact ⟨t, List.mem_cons_of_mem s ht, hc⟩

theorem short_hash_hex (s : String) :
    ∀ c ∈ (short_hash s).data, Address.isHexChar c = true := by
  intro c hc
  have hc2 : c ∈ (sha256HexChars s).take 16 := hc
  exact isHexChar_of_mem_hexDigits
    (sha256HexChars_mem_hexDigits s c (List.mem_of_mem_take hc2))

/-- Claim C1 (amended): `key_to_address` splits the key on `'.'` into at
most 4 parts, pads missing parts with empty strings to exactly 4, and
returns the fixed namespace hash (6 hex characters, the SHA-512 digest of
`"events"` truncated to 6) followed by the short hash — the first 16 hex
characters of the SHA-256 hex digest of the UTF-8 bytes — of each of the 4
parts, for a total of exactly 70 hex characters. -/
theorem claim1_key_to_address (key : String) :
    key_to_address key
        = UNITS_NAMESPACE ++ str_join ((key_parts key).map short_hash)
    ∧ (key_parts key).length = 4
    ∧ UNITS_NAMESPACE.length = 6
    ∧ (∀ p ∈ key_parts key, (short_hash p).length = 16)
    ∧ (key_to_address key).length = 70
    ∧ ∀ c ∈ (key_to_address key).data, Address.isHexChar c = true := by
  refine ⟨rfl, key_parts_length key, UNITS_NAMESPACE_length,
    fun p _ => short_hash_length p, key_to_address_length key, ?_⟩
  intro c hc
  rw [key_to_address, String.data_append] at hc
  rcases List.mem_append.mp hc with h1 | h1
  · have h2 : c ∈ (sha512HexChars "events").take 6 := h1
    exact isHexChar_of_mem_hexDigits
      (sha512HexChars_mem_hexDigits _ c (List.mem_of_mem_take h2))
  · obtain ⟨s, hs, hcs⟩ := mem_str_join h1
    obtain ⟨p, hp, rfl⟩ := List.mem_map.mp hs
    exact short_hash_hex p c hcs

/-- Claim C1 witness: at the concrete key `"a.b"` the address has 70
characters and the part hash of `"a"` has 16. -/
theorem claim1_witness :
    (key_to_address "a.b").length = 70 ∧ (short_hash "a").length = 16 :=
  ⟨(claim1_key_to_address "a.b").2.2.2.2.1,
   (claim1_key_to_address "a.b").2.2.2.1 "a" (by decide)⟩

/-- Claim C1 counterexample: at the concrete key `"a"` the address has 70
characters, not 30 — each part contributes 16 characters of a SHA-256
digest, not 6 of a SHA-512 digest. -/
theorem claim1_counterexample :
    (key_to_address "a").length = 70
    ∧ ((key_to_address "a").length == 30) = false := by
  constructor
  · exact key_to_address_length "a"
  · rw [key_to_address_length]
    decide

theorem mem_genesis_authorized_keys (public_key : String)
    (arg_keys : List String) :
    public_key ∈ genesis_authorized_keys public_key arg_keys := by
  simp only [genesis_authorized_keys]
  by_cases h : public_key ∈ (if arg_keys.isEmpty then [public_key] else arg_keys)
  · rwa [if_pos h]
  · rw [if_neg h]
    exact List.mem_append.mpr (Or.inr (List.mem_singleton.mpr rfl))

/-- Claim C6: the genesis builder fails when a supplied approval threshold is
less than 1 or greater than the number of authorized keys (the list used in
the proposal), and on success the comma-joined `authorized_keys` proposal
value is over a key list that always contains the signer's own public key,
even when the caller's key list omits it or is empty. -/
theorem claim6_config_genesis (public_key : String) (arg_keys : List String)
    (approval_threshold : Option Int) :
    (∀ t : Int, approval_threshold = some t →
      (t < 1 ∨ ((genesis_authorized_keys public_key arg_keys).length : Int) < t) →
      exceptIsOk (do_config_genesis public_key arg_keys approval_threshold)
          = false)
    ∧ ∀ props, do_config_genesis public_key arg_keys approval_threshold
          = Except.ok props →
        props.head? = some ("hashblock.events.vote.authorized_keys",
            String.intercalate "," (genesis_authorized_keys public_key arg_keys))
        ∧ public_key ∈ genesis_authorized_keys public_key arg_keys := by
  constructor
  · rintro t rfl hrange
    simp only [do_config_genesis]
    rcases hrange with h | h
    · rw [if_pos h]
      rfl
    · by_cases h1 : t < 1
      · rw [if_pos h1]
        rfl
      · rw [if_neg h1, if_pos h]
        rfl
  · intro props hok
    refine ⟨?_, mem_genesis_authorized_keys public_key arg_keys⟩
    cases approval_threshold with
    | none =>
      simp only [do_config_genesis] at hok
      injection hok with hok
      subst hok
      rfl
    | some t =>
      simp only [do_config_genesis] at hok
      by_cases h1 : t < 1
      · rw [if_pos h1] at hok
        cases hok
      · rw [if_neg h1] at hok
        by_cases h2 : t > ((genesis_authorized_keys public_key arg_keys).length : Int)
        · rw [if_pos h2] at hok
          cases hok
        · rw [if_neg h2] at hok
          injection hok with hok
          subst hok
          rfl

/-- Claim C6 witness: with signer key `"K"` and no caller keys, threshold 0
is rejected while threshold 1 succeeds with the signer's key in the
authorized-keys proposal value. -/
theorem claim6_witness :
    exceptIsOk (do_config_genesis "K" [] (some 0)) = false
    ∧ ([("hashblock.events.vote.authorized_keys", "K"),
        ("hashblock.events.vote.approval_threshold", "1")].head?
          = some ("hashblock.events.vote.authorized_keys",
              String.intercalate "," (genesis_authorized_keys "K" [])))
    ∧ "K" ∈ genesis_authorized_keys "K" [] := by
  have h2 := (claim6_config_genesis "K" [] (some 1)).2
    [("hashblock.events.vote.authorized_keys", "K"),
     ("hashblock.events.vote.approval_threshold", "1")] (by rfl)
  exact ⟨(claim6_config_genesis "K" [] (some 0)).1 0 rfl (Or.inl (by decide)),
    h2.1, h2.2⟩

/-- Claim C7: casting a vote on a candidate proposal fails with the
duplicate-vote error whenever the voter's public key already appears among
the candidate's recorded votes, for any accept/reject value; the embedded
error return carries no transaction or batch. -/
theorem claim7_duplicate_vote (signer : Signer) (cands : List Candidate)
    (proposal_id vote_value : String) (c : Candidate)
    (hfind : find_candidate cands proposal_id = some c)
    (hdup : ∃ v ∈ c.votes, v.public_key = signer.public_key) :
    do_event_reciprocate signer cands proposal_id vote_value
      = Except.error "A vote has already been recorded with this signing key" := by
  obtain ⟨v, hv, heq⟩ := hdup
  have hany : c.votes.any (fun v => v.public_key == signer.public_key) = true :=
    List.any_eq_true.mpr ⟨v, hv, beq_iff_eq.mpr heq⟩
  simp only [do_event_reciprocate, hfind, hany, if_true]

/-- Claim C7 witness: a concrete candidate already carrying a vote by the
signer is rejected for both an accepting and any other vote value. -/
theorem claim7_witness :
    do_event_reciprocate ⟨"K1", id⟩ [⟨"p1", "a.b", "v", [⟨"K1", 0⟩]⟩]
        "p1" "accept"
      = Except.error "A vote has already been recorded with this signing key" :=
  claim7_duplicate_vote ⟨"K1", id⟩ [⟨"p1", "a.b", "v", [⟨"K1", 0⟩]⟩]
    "p1" "accept" ⟨"p1", "a.b", "v", [⟨"K1", 0⟩]⟩ (by decide)
    ⟨⟨"K1", 0⟩, by decide, rfl⟩

theorem accept_candidate_eq (c : Candidate) (public_key pfx : String)
    (h : public_key = "" ∨ c.votes ≠ []) :
    accept_candidate c public_key pfx
      = some (accept_total c public_key pfx) := by
  by_cases hpk : public_key = ""
  · subst hpk
    simp [accept_candidate, accept_total]
  · have hv : c.votes ≠ [] := h.resolve_left hpk
    obtain ⟨v, vs, hvs⟩ : ∃ v vs, c.votes = v :: vs := by
      cases hcv : c.votes with
      | nil => exact absurd hcv hv
      | cons v vs => exact ⟨v, vs, rfl⟩
    have hb : (public_key == "") = false := beq_eq_false_iff_ne.mpr hpk
    simp [accept_candidate, accept_total, hpk, hvs, hb]

theorem list_candidates_eq_filter (cands : List Candidate)
    (public_key pfx : String)
    (h : public_key = "" ∨ ∀ c ∈ cands, c.votes ≠ []) :
    list_candidates cands public_key pfx
      = some (cands.filter (fun c => accept_total c public_key pfx)) := by
  induction cands with
  | nil => rfl
  | cons c cs ih =>
    have hc : public_key = "" ∨ c.votes ≠ [] := by
      rcases h with h | h
      · exact Or.inl h
      · exact Or.inr (h c (List.mem_cons_self c cs))
    have hcs : public_key = "" ∨ ∀ x ∈ cs, x.votes ≠ [] := by
      rcases h with h | h
      · exact Or.inl h
      · exact Or.inr (fun x hx => h x (List.mem_cons_of_mem c hx))
    rw [list_candidates, accept_candidate_eq c public_key pfx hc, ih hcs]
    cases hb : accept_total c public_key pfx <;>
      simp [List.filter_cons, hb]

/-- Claim C8: the candidate listing filter includes a candidate exactly when
its proposal code starts with the given prefix and the public-key filter is
empty or equals the first recorded vote's public key, and the returned list
is a sublist of (hence preserves the order of) the source collection; stated
under the totality precondition that the filter key is empty or every
candidate has a recorded vote (see claim C10 for the failing case). -/
theorem claim8_list_filter (cands : List Candidate) (public_key pfx : String)
    (h : public_key = "" ∨ ∀ c ∈ cands, c.votes ≠ []) :
    list_candidates cands public_key pfx
        = some (cands.filter (fun c => accept_total c public_key pfx))
    ∧ (cands.filter (fun c => accept_total c public_key pfx)).Sublist cands :=
  ⟨list_candidates_eq_filter cands public_key pfx h, List.filter_sublist cands⟩

/-- Claim C8 witness: the spec's example — two candidates with codes
`"a.b"` and `"a.c"` and first votes by `K1` and `K2`, filtered by prefix
`"a."` and key `K1`, return exactly the first candidate. -/
theorem claim8_witness :
    list_candidates
        [⟨"p1", "a.b", "v1", [⟨"K1", 0⟩]⟩, ⟨"p2", "a.c", "v2", [⟨"K2", 0⟩]⟩]
        "K1" "a."
      = some [⟨"p1", "a.b", "v1", [⟨"K1", 0⟩]⟩] := by
  have h := (claim8_list_filter
      [⟨"p1", "a.b", "v1", [⟨"K1", 0⟩]⟩, ⟨"p2", "a.c", "v2", [⟨"K2", 0⟩]⟩]
      "K1" "a." (Or.inr (by decide))).1
  rw [h]
  decide

/-- Claim C9: for every signer and transaction list, the constructed batch
contains exactly the given transactions in the given order, and its header's
transaction-id list is exactly the ordered list of the transactions' header
signatures (signed by the signer's public key). -/
theorem claim9_create_batch (signer : Signer)
    (transactions : List TransactionM) :
    (create_batch signer transactions).transactions = transactions
    ∧ (create_batch signer transactions).header.transaction_ids
        = transactions.map (fun txn => txn.header_signature)
    ∧ (create_batch signer transactions).header.signer_public_key
        = signer.public_key :=
  ⟨rfl, rfl, rfl⟩

/-- Claim C10: with a non-empty public-key filter, the listing predicate
unconditionally reads the first recorded vote, so a candidate with an empty
vote list makes the predicate — and the whole listing containing that
candidate — raise the out-of-range error (`none`) instead of excluding the
candidate. -/
theorem claim10_empty_votes_crash (c : Candidate) (public_key pfx : String)
    (hpk : public_key ≠ "") (hv : c.votes = []) :
    accept_candidate c public_key pfx = none
    ∧ ∀ cands : List Candidate, c ∈ cands →
        list_candidates cands public_key pfx = none := by
  have hacc : accept_candidate c public_key pfx = none := by
    rw [accept_candidate, if_neg hpk, hv]
    rfl
  refine ⟨hacc, ?_⟩
  intro cands hmem
  induction cands with
  | nil => cases hmem
  | cons x xs ih =>
    rcases List.mem_cons.mp hmem with rfl | hmem2
    · rw [list_candidates, hacc]
    · rw [list_candidates, ih hmem2]
      cases haccx : accept_candidate x public_key pfx <;> rfl

/-- Claim C10 witness: a concrete candidate with an empty vote list makes
both the predicate and the one-element listing fail under a non-empty
public-key filter. -/
theorem claim10_witness :
    accept_candidate ⟨"p1", "a.b", "v", []⟩ "K" "" = none
    ∧ list_candidates [⟨"p1", "a.b", "v", []⟩] "K" "" = none := by
  have h := claim10_empty_votes_crash ⟨"p1", "a.b", "v", []⟩ "K" ""
    (by decide) rfl
  exact ⟨h.1, h.2 [⟨"p1", "a.b", "v", []⟩] (by decide)⟩

end Events

end HBEx
